import Mathlib

/-!
Shallow embedding of the bit-buffer-ts library (src/index.ts): the `BitView`
bit-level accessor and the `BitStream` cursor wrapper.

Modelling conventions:
* A JavaScript number holding an integer is modelled as `Int`, with exact
  arithmetic for `+ - * ** % /` (the source only applies them to integers in
  the ranges the claims quantify over).
* JavaScript's bitwise operators first coerce their operands with `ToInt32` /
  `ToUint32`; that coercion is modelled explicitly inside each operator
  (`jsAnd`, `jsOr`, `jsXor`, `jsShl`, `jsShr`, `jsUshr`, `jsNot`).  `x >> k`
  is arithmetic shift, i.e. floor division of the 32-bit value, which for the
  positive power-of-two divisor equals `Int.ediv`.
* A `Uint8Array` is a `List Nat` of bytes.  Reading an out-of-range index
  yields `undefined`, which every bitwise consumer coerces to `0`; writing an
  out-of-range index is discarded; a stored value is coerced with `ToUint8`
  (mod 256).  `readByte` / `writeByte` model exactly that.
* A thrown `Error` (the library's single bounds error, source line 25) is
  modelled as `JsError`.  Read paths return `Except JsError Int`; write paths
  return the final buffer state paired with `Option JsError`, so that the
  buffer contents at the moment an exception propagates stay observable.
-/

/-- `ToUint32`: the low 32 bits of an integer, as a natural number. -/
def toUint32 (x : Int) : Nat := (x % 4294967296).toNat

/-- Reinterpret a 32-bit pattern as a signed 32-bit integer. -/
def asInt32 (u : Nat) : Int :=
  if u < 2147483648 then (u : Int) else (u : Int) - 4294967296

/-- `ToInt32`. -/
def toInt32 (x : Int) : Int := asInt32 (toUint32 x)

/-- JavaScript `a & b`. -/
def jsAnd (a b : Int) : Int := asInt32 (toUint32 a &&& toUint32 b)

/-- JavaScript `a | b`. -/
def jsOr (a b : Int) : Int := asInt32 (toUint32 a ||| toUint32 b)

/-- JavaScript `a ^ b`. -/
def jsXor (a b : Int) : Int := asInt32 (toUint32 a ^^^ toUint32 b)

/-- JavaScript `~a` (equals `-a - 1` on 32-bit values). -/
def jsNot (a : Int) : Int := toInt32 (-a - 1)

/-- JavaScript `a << b`. -/
def jsShl (a b : Int) : Int :=
  asInt32 ((toUint32 a * 2 ^ (toUint32 b % 32)) % 4294967296)

/-- JavaScript `a >> b` (arithmetic shift = floor division of the Int32). -/
def jsShr (a b : Int) : Int := toInt32 a / 2 ^ (toUint32 b % 32)

/-- JavaScript `a >>> b` (logical shift of the Uint32). -/
def jsUshr (a b : Int) : Int := ((toUint32 a / 2 ^ (toUint32 b % 32) : Nat) : Int)

/-- `Uint8Array` element read: out-of-range gives `undefined`, which the
bitwise/arithmetic consumers in this file coerce to `0`. -/
def readByte (buf : List Nat) (i : Int) : Int :=
  if 0 ≤ i then ((buf.getD i.toNat 0 : Nat) : Int) else 0

/-- `Uint8Array` element write: `ToUint8` (mod 256) on the value, discarded
when the index is out of range (`List.set` ignores indices past the end). -/
def writeByte (buf : List Nat) (i : Int) (x : Int) : List Nat :=
  if 0 ≤ i then buf.set i.toNat (x % 256).toNat else buf

/-- The library's single error kind: source line 25,
`throw new Error('Cannot get/set ' + bits + ' bit(s) from offset ' + offset
+ ', ' + available + ' available')`. -/
inductive JsError where
  | boundsError (bits offset available : Int)
deriving DecidableEq, Repr

/-- `BitView` (source lines 6–19).  The constructor windows the byte buffer
and stores `byteLength` = window length and `bitLength` = `byteLength * 8`;
here the windowed buffer is the state and the two lengths are derived,
which is exactly the constructor's invariant. -/
structure BitView where
  buffer : List Nat
deriving DecidableEq, Repr

/-- Source line 17: length of the view in bytes. -/
def BitView.byteLength (v : BitView) : Int := (v.buffer.length : Int)

/-- Source line 18: `byteLength * 8`. -/
def BitView.bitLength (v : BitView) : Int := (v.buffer.length : Int) * 8

/-- Source lines 21–26. -/
def BitView.checkBounds (v : BitView) (offset bits : Int) : Option JsError :=
  let available := v.bitLength - offset
  if bits > available then some (JsError.boundsError bits offset available) else none

/-- Source lines 33–35:
`(this.buffer[offset >> 3] >> (7 - (offset & 0b111)) & 0b1)` — the byte
index `offset >> 3` and the intra-byte position `offset & 0b111` go through
the `ToInt32` coercion of the JavaScript shift and mask operators, so an
offset at or beyond `2^31` wraps. -/
def BitView.getBit (v : BitView) (offset : Int) : Int :=
  jsAnd (jsShr (readByte v.buffer (jsShr offset 3)) (7 - jsAnd offset 7)) 1

/-- The ascending index sequence `startByte, ..., endByte` of the `getBits`
`for` loop (source line 55). -/
def byteRange (startByte endByte : Int) : List Int :=
  (List.range (endByte - startByte + 1).toNat).map (fun (k : Nat) => startByte + (k : Int))

/-- The descending index sequence `endByte, ..., startByte` of the `setBits`
`for` loop (source line 126). -/
def byteRangeDesc (startByte endByte : Int) : List Int :=
  (List.range (endByte - startByte + 1).toNat).map (fun (k : Nat) => endByte - (k : Int))

/-- One iteration of the `getBits` loop body (source lines 55–83), on the
state `(value, written)` at byte index `i`. -/
def getBitsStep (buf : List Nat) (signed : Bool)
    (startBitOffset endBitOffset startByte endByte : Int)
    (st : Int × Int) (i : Int) : Int × Int :=
  let byte0 : Int := readByte buf i
  let byte1 := if i = startByte then jsAnd byte0 (jsShr 255 startBitOffset) else byte0
  let shift1 : Int := if i = startByte then 8 - startBitOffset else 8
  let byte2 := if i = endByte then jsShr byte1 endBitOffset else byte1
  let shift2 := if i = endByte then shift1 - endBitOffset else shift1
  let written := st.2 + shift2
  let value1 :=
    if i = startByte then st.1
    else if written ≤ 32 then jsShl st.1 shift2 else st.1 * 2 ^ shift2.toNat
  let value2 := if written ≤ 32 then jsOr value1 byte2 else value1 + byte2
  let value3 :=
    if signed = false ∧ written = 32 then ((toUint32 value2 : Nat) : Int) else value2
  (value3, written)

/-- Source lines 44–95: `getBits`.  The `for` loop over the bytes
`startByte..endByte` is a fold of `getBitsStep` with state
`(value, written)`, followed by the signed conversion (lines 85–92). -/
def BitView.getBits (v : BitView) (offset bits : Int) (signed : Bool) :
    Except JsError Int :=
  match v.checkBounds offset bits with
  | some e => Except.error e
  | none =>
    let startBitOffset := (offset % 8)
    let endBitOffset :=
      8 - (if ((offset + bits) % 8) = 0 then 8 else ((offset + bits) % 8))
    let startByte := (offset / 8)
    let endByte := ((offset + bits - 1) / 8)
    let idxs := byteRange startByte endByte
    let value := (idxs.foldl
      (getBitsStep v.buffer signed startBitOffset endBitOffset startByte endByte)
      (0, 0)).1
    let result :=
      if signed then
        if bits < 32 ∧ jsShr value (bits - 1) > 0 then
          jsOr value (jsXor (-1) (jsShl 1 bits - 1))
        else if bits > 32 ∧ value > 2 ^ (bits - 1).toNat then
          value - 2 ^ bits.toNat
        else value
      else value
    Except.ok result

/-- Source lines 103–106: single-bit read-modify-write.  As in `getBit`,
`offset >> 3` and `offset & 0b111` carry the `ToInt32` coercion. -/
def BitView.setBit (v : BitView) (offset value : Int) : BitView :=
  let i := jsShr offset 3
  if value = 1 then
    BitView.mk (writeByte v.buffer i
      (jsOr (readByte v.buffer i) (jsShr 128 (jsAnd offset 7))))
  else
    BitView.mk (writeByte v.buffer i
      (jsAnd (readByte v.buffer i) (jsNot (jsShr 128 (jsAnd offset 7)))))

/-- One iteration of the `setBits` loop body (source lines 126–159), on the
state `(buffer, value, bits)` at byte index `i` — `value` and `bits` evolve
in the state because the source mutates both parameters as it goes.
Line 147 is kept exactly as written: `byte = value & (0b11111111 >> read)`.
In the `bits > 32` branch, `value % divisor` is JavaScript's remainder
(sign of the dividend, `Int.tmod`), and the subsequent
`(value - byte) / divisor` is exact. -/
def setBitsStep (startBitOffset endBitOffset startByte endByte : Int)
    (st : List Nat × Int × Int) (i : Int) : List Nat × Int × Int :=
  let buf := st.1
  let value := st.2.1
  let bits := st.2.2
  let read1 : Int := if i = startByte then 8 - startBitOffset else 8
  let mask1 : Int :=
    if i = startByte then jsAnd 255 (jsShr 255 startBitOffset) else 255
  let read2 := if i = endByte then read1 - endBitOffset else read1
  let mask2 := if i = endByte then jsAnd mask1 (jsShl 255 endBitOffset) else mask1
  let shift : Int := if i = endByte then endBitOffset else 0
  let extracted :=
    if bits ≤ 32 then
      (jsAnd value (jsShr 255 read2), jsShr value read2)
    else
      let divisor : Int := 2 ^ read2.toNat
      let b := Int.tmod value divisor
      let b2 := if b < 0 then b + divisor else b
      (b2, Int.tdiv (value - b2) divisor)
  let buf2 := writeByte buf i
    (jsOr (jsAnd (readByte buf i) (jsNot mask2)) (jsShl extracted.1 shift))
  (buf2, extracted.2, bits - read2)

/-- Source lines 117–160: `setBits`: the bounds check, then the descending
`for` loop over `endByte..startByte` as a fold of `setBitsStep`. -/
def BitView.setBits (v : BitView) (offset value bits : Int) :
    BitView × Option JsError :=
  match v.checkBounds offset bits with
  | some e => (v, some e)
  | none =>
    let startBitOffset := (offset % 8)
    let endBitOffset :=
      8 - (if ((offset + bits) % 8) = 0 then 8 else ((offset + bits) % 8))
    let startByte := (offset / 8)
    let endByte := ((offset + bits - 1) / 8)
    let idxs := byteRangeDesc startByte endByte
    (BitView.mk (idxs.foldl
      (setBitsStep startBitOffset endBitOffset startByte endByte)
      (v.buffer, value, bits)).1, none)

/-- Source line 162. -/
def BitView.getBoolean (v : BitView) (offset : Int) : Bool := v.getBit offset == 1

/-- Source line 163. -/
def BitView.getInt8 (v : BitView) (offset : Int) : Except JsError Int :=
  v.getBits offset 8 true

/-- Source line 164. -/
def BitView.getUint8 (v : BitView) (offset : Int) : Except JsError Int :=
  v.getBits offset 8 false

/-- Source line 165. -/
def BitView.getInt16 (v : BitView) (offset : Int) : Except JsError Int :=
  v.getBits offset 16 true

/-- Source line 166. -/
def BitView.getUint16 (v : BitView) (offset : Int) : Except JsError Int :=
  v.getBits offset 16 false

/-- Source line 167. -/
def BitView.getInt32 (v : BitView) (offset : Int) : Except JsError Int :=
  v.getBits offset 32 true

/-- Source line 168. -/
def BitView.getUint32 (v : BitView) (offset : Int) : Except JsError Int :=
  v.getBits offset 32 false

/-- Source line 170. -/
def BitView.setBoolean (v : BitView) (offset : Int) (value : Bool) : BitView :=
  v.setBit offset (if value then 1 else 0)

/-- Source line 171. -/
def BitView.setInt8 (v : BitView) (offset value : Int) : BitView × Option JsError :=
  v.setBits offset value 8

/-- Source line 172. -/
def BitView.setUint8 (v : BitView) (offset value : Int) : BitView × Option JsError :=
  v.setBits offset value 8

/-- Source line 173. -/
def BitView.setInt16 (v : BitView) (offset value : Int) : BitView × Option JsError :=
  v.setBits offset value 16

/-- Source line 174. -/
def BitView.setUint16 (v : BitView) (offset value : Int) : BitView × Option JsError :=
  v.setBits offset value 16

/-- Source line 175. -/
def BitView.setInt32 (v : BitView) (offset value : Int) : BitView × Option JsError :=
  v.setBits offset value 32

/-- Source line 176. -/
def BitView.setUint32 (v : BitView) (offset value : Int) : BitView × Option JsError :=
  v.setBits offset value 32

/-- Source lines 196–199: `for (i in 0..len-1) setUint8(offset + i*8, buf[i])`.
The loop is peeled: each step writes one byte at the running offset and
recurses at `offset + 8`; it stops when the exception raised by `setUint8`'s
bounds check propagates, returning the buffer state at that moment. -/
def BitView.writeBuffer (v : BitView) (offset : Int) (src : List Nat) :
    BitView × Option JsError :=
  match src with
  | [] => (v, none)
  | b :: rest =>
    match v.setUint8 offset (b : Int) with
    | (v2, some e) => (v2, some e)
    | (v2, none) => BitView.writeBuffer v2 (offset + 8) rest

/-- Source lines 224–234.  The `TextEncoder` is an external codec (out of the
core's scope); `encoded` stands for the byte array the encoder produced for
the string (already truncated / zero-padded to `byteLength` when one was
given, lines 228–231).  The write itself delegates to `writeBuffer`
(line 232). -/
def BitView.writeString (v : BitView) (offset : Int) (encoded : List Nat) :
    BitView × Option JsError :=
  v.writeBuffer offset encoded

/-- Modelled from the spec: `getBit` with the bounds check the spec demands —
"Fails with BoundsError if `offset ≥ bitLength`" — for comparison with the
source's `getBit`, which performs no such check. -/
def BitView.getBitSpec (v : BitView) (offset : Int) : Except JsError Int :=
  if v.bitLength ≤ offset then
    Except.error (JsError.boundsError 1 offset (v.bitLength - offset))
  else
    Except.ok (v.getBit offset)

/-- `BitStream` (source lines 240–273): a cursor wrapper around a `BitView`.
The constructor stores the view and sets `bitIndex = 0` (line 270);
`buffer`, `byteLength`, `bitLength` mirror the view. -/
structure BitStream where
  view : BitView
  bitIndex : Int
deriving DecidableEq, Repr

/-- Source lines 264–273: constructing a stream from a view. -/
def BitStream.ofView (v : BitView) : BitStream := BitStream.mk v 0

/-- Source line 248 / 271. -/
def BitStream.bitLength (s : BitStream) : Int := s.view.bitLength

/-- Source line 246 / 272. -/
def BitStream.byteLength (s : BitStream) : Int := s.view.byteLength

/-- Source line 258: `bitLength - bitIndex`. -/
def BitStream.bitsLeft (s : BitStream) : Int := s.bitLength - s.bitIndex

/-- Source line 261: `Math.ceil(this.bitIndex / 8)`, the ceiling of the exact
quotient, written as `-((-bitIndex) / 8)` on integers. -/
def BitStream.byteIndex (s : BitStream) : Int := -((-s.bitIndex) / 8)

/-- Source lines 275–279: read the bit at the cursor, then `bitIndex++`.
`getBit` has no error path, so neither has this. -/
def BitStream.readBit (s : BitStream) : Int × BitStream :=
  (s.view.getBit s.bitIndex, BitStream.mk s.view (s.bitIndex + 1))

/-- Source lines 281–285: delegate to `getBits` at the cursor; the cursor
advances (`bitIndex += bits`) only after the view call returns — a thrown
bounds error propagates first, leaving the stream untouched. -/
def BitStream.readBits (s : BitStream) (bits : Int) (signed : Bool) :
    Except JsError (Int × BitStream) :=
  match s.view.getBits s.bitIndex bits signed with
  | Except.error e => Except.error e
  | Except.ok val => Except.ok (val, BitStream.mk s.view (s.bitIndex + bits))

/-- Source lines 287–290. -/
def BitStream.writeBit (s : BitStream) (value : Int) : BitStream :=
  BitStream.mk (s.view.setBit s.bitIndex value) (s.bitIndex + 1)

/-- Source lines 292–295: delegate to `setBits` at the cursor; on a bounds
error the exception propagates before `bitIndex += bits`, so the returned
state keeps the old cursor (and `setBits` left the buffer untouched). -/
def BitStream.writeBits (s : BitStream) (value bits : Int) :
    BitStream × Option JsError :=
  match s.view.setBits s.bitIndex value bits with
  | (v, some e) => (BitStream.mk v s.bitIndex, some e)
  | (v, none) => (BitStream.mk v (s.bitIndex + bits), none)

/-- Source line 297. -/
def BitStream.readBoolean (s : BitStream) : Bool × BitStream :=
  ((s.readBit).1 == 1, (s.readBit).2)

/-- Source line 298. -/
def BitStream.readInt8 (s : BitStream) : Except JsError (Int × BitStream) :=
  s.readBits 8 true

/-- Source line 299. -/
def BitStream.readUint8 (s : BitStream) : Except JsError (Int × BitStream) :=
  s.readBits 8 false

/-- Source line 300. -/
def BitStream.readInt16 (s : BitStream) : Except JsError (Int × BitStream) :=
  s.readBits 16 true

/-- Source line 301. -/
def BitStream.readUint16 (s : BitStream) : Except JsError (Int × BitStream) :=
  s.readBits 16 false

/-- Source line 302. -/
def BitStream.readInt32 (s : BitStream) : Except JsError (Int × BitStream) :=
  s.readBits 32 true

/-- Source line 303. -/
def BitStream.readUint32 (s : BitStream) : Except JsError (Int × BitStream) :=
  s.readBits 32 false

/-- Source line 305. -/
def BitStream.writeBoolean (s : BitStream) (value : Bool) : BitStream :=
  s.writeBit (if value then 1 else 0)

/-- Source line 306. -/
def BitStream.writeInt8 (s : BitStream) (value : Int) : BitStream × Option JsError :=
  s.writeBits value 8

/-- Source line 307. -/
def BitStream.writeUint8 (s : BitStream) (value : Int) : BitStream × Option JsError :=
  s.writeBits value 8

/-- Source line 308. -/
def BitStream.writeInt16 (s : BitStream) (value : Int) : BitStream × Option JsError :=
  s.writeBits value 16

/-- Source line 309. -/
def BitStream.writeUint16 (s : BitStream) (value : Int) : BitStream × Option JsError :=
  s.writeBits value 16

/-- Source line 310. -/
def BitStream.writeInt32 (s : BitStream) (value : Int) : BitStream × Option JsError :=
  s.writeBits value 32

/-- Source line 311. -/
def BitStream.writeUint32 (s : BitStream) (value : Int) : BitStream × Option JsError :=
  s.writeBits value 32

/-- One fixed-width sequential operation of the stream API (source lines
275–311): the bit, bits, boolean, int8/16/32 and uint8/16/32 reads and
writes. -/
inductive StreamOp where
  | opReadBit : StreamOp
  | opReadBits (bits : Int) (signed : Bool) : StreamOp
  | opWriteBit (value : Int) : StreamOp
  | opWriteBits (value bits : Int) : StreamOp
  | opReadBoolean : StreamOp
  | opWriteBoolean (value : Bool) : StreamOp
  | opReadInt8 : StreamOp
  | opReadUint8 : StreamOp
  | opReadInt16 : StreamOp
  | opReadUint16 : StreamOp
  | opReadInt32 : StreamOp
  | opReadUint32 : StreamOp
  | opWriteInt8 (value : Int) : StreamOp
  | opWriteUint8 (value : Int) : StreamOp
  | opWriteInt16 (value : Int) : StreamOp
  | opWriteUint16 (value : Int) : StreamOp
  | opWriteInt32 (value : Int) : StreamOp
  | opWriteUint32 (value : Int) : StreamOp
deriving DecidableEq, Repr

/-- The number of bits an operation consumes. -/
def StreamOp.width : StreamOp → Int
  | .opReadBit => 1
  | .opReadBits bits _ => bits
  | .opWriteBit _ => 1
  | .opWriteBits _ bits => bits
  | .opReadBoolean => 1
  | .opWriteBoolean _ => 1
  | .opReadInt8 => 8
  | .opReadUint8 => 8
  | .opReadInt16 => 16
  | .opReadUint16 => 16
  | .opReadInt32 => 32
  | .opReadUint32 => 32
  | .opWriteInt8 _ => 8
  | .opWriteUint8 _ => 8
  | .opWriteInt16 _ => 16
  | .opWriteUint16 _ => 16
  | .opWriteInt32 _ => 32
  | .opWriteUint32 _ => 32

/-- Run one operation, discarding any read value.  An operation succeeds when
the delegated view call does not throw; a write that throws leaves the
returned stream as `writeBits` left it and the error aborts the run. -/
def runOp (s : BitStream) : StreamOp → Except JsError BitStream
  | .opReadBit => Except.ok (s.readBit).2
  | .opReadBits bits signed =>
    match s.readBits bits signed with
    | Except.error e => Except.error e
    | Except.ok r => Except.ok r.2
  | .opWriteBit value => Except.ok (s.writeBit value)
  | .opWriteBits value bits =>
    match s.writeBits value bits with
    | (_, some e) => Except.error e
    | (s2, none) => Except.ok s2
  | .opReadBoolean => Except.ok (s.readBoolean).2
  | .opWriteBoolean value => Except.ok (s.writeBoolean value)
  | .opReadInt8 =>
    match s.readInt8 with
    | Except.error e => Except.error e
    | Except.ok r => Except.ok r.2
  | .opReadUint8 =>
    match s.readUint8 with
    | Except.error e => Except.error e
    | Except.ok r => Except.ok r.2
  | .opReadInt16 =>
    match s.readInt16 with
    | Except.error e => Except.error e
    | Except.ok r => Except.ok r.2
  | .opReadUint16 =>
    match s.readUint16 with
    | Except.error e => Except.error e
    | Except.ok r => Except.ok r.2
  | .opReadInt32 =>
    match s.readInt32 with
    | Except.error e => Except.error e
    | Except.ok r => Except.ok r.2
  | .opReadUint32 =>
    match s.readUint32 with
    | Except.error e => Except.error e
    | Except.ok r => Except.ok r.2
  | .opWriteInt8 value =>
    match s.writeInt8 value with
    | (_, some e) => Except.error e
    | (s2, none) => Except.ok s2
  | .opWriteUint8 value =>
    match s.writeUint8 value with
    | (_, some e) => Except.error e
    | (s2, none) => Except.ok s2
  | .opWriteInt16 value =>
    match s.writeInt16 value with
    | (_, some e) => Except.error e
    | (s2, none) => Except.ok s2
  | .opWriteUint16 value =>
    match s.writeUint16 value with
    | (_, some e) => Except.error e
    | (s2, none) => Except.ok s2
  | .opWriteInt32 value =>
    match s.writeInt32 value with
    | (_, some e) => Except.error e
    | (s2, none) => Except.ok s2
  | .opWriteUint32 value =>
    match s.writeUint32 value with
    | (_, some e) => Except.error e
    | (s2, none) => Except.ok s2

/-- Run a sequence of operations; the first thrown error aborts the run. -/
def runOps (s : BitStream) : List StreamOp → Except JsError BitStream
  | [] => Except.ok s
  | op :: rest =>
    match runOp s op with
    | Except.error e => Except.error e
    | Except.ok s2 => runOps s2 rest

/-- Sum of the widths of a sequence of operations. -/
def opWidthSum (ops : List StreamOp) : Int := (ops.map StreamOp.width).sum

/-! ## Helper lemmas -/

theorem jsShr_zero_left (b : Int) : jsShr 0 b = 0 := by
  unfold jsShr toInt32 asInt32 toUint32
  norm_num

theorem writeByte_length (buf : List Nat) (i x : Int) :
    (writeByte buf i x).length = buf.length := by
  unfold writeByte; split <;> simp

theorem setBitsStep_length (p q r s : Int) (st : List Nat × Int × Int) (i : Int) :
    ((setBitsStep p q r s st i).1).length = st.1.length := by
  unfold setBitsStep
  simp [writeByte_length]

theorem foldl_setBitsStep_length (l : List Int) (p q r s : Int)
    (st : List Nat × Int × Int) :
    ((l.foldl (setBitsStep p q r s) st).1).length = st.1.length := by
  induction l generalizing st with
  | nil => rfl
  | cons a t ih => rw [List.foldl_cons, ih, setBitsStep_length]

theorem checkBounds_overrun (v : BitView) (offset bits : Int)
    (h : v.bitLength < offset + bits) :
    v.checkBounds offset bits =
      some (JsError.boundsError bits offset (v.bitLength - offset)) := by
  simp only [BitView.checkBounds]
  rw [if_pos (by omega)]

theorem checkBounds_ok (v : BitView) (offset bits : Int)
    (h : offset + bits ≤ v.bitLength) :
    v.checkBounds offset bits = none := by
  simp only [BitView.checkBounds]
  rw [if_neg (by omega)]

theorem getBits_overrun (v : BitView) (offset bits : Int) (signed : Bool)
    (h : v.bitLength < offset + bits) :
    v.getBits offset bits signed =
      Except.error (JsError.boundsError bits offset (v.bitLength - offset)) := by
  unfold BitView.getBits
  rw [checkBounds_overrun v offset bits h]

theorem setBits_overrun (v : BitView) (offset value bits : Int)
    (h : v.bitLength < offset + bits) :
    v.setBits offset value bits =
      (v, some (JsError.boundsError bits offset (v.bitLength - offset))) := by
  unfold BitView.setBits
  rw [checkBounds_overrun v offset bits h]

theorem getBits_ok_exists (v : BitView) (offset bits : Int) (signed : Bool)
    (h : offset + bits ≤ v.bitLength) :
    ∃ r, v.getBits offset bits signed = Except.ok r := by
  unfold BitView.getBits
  rw [checkBounds_ok v offset bits h]
  exact ⟨_, rfl⟩

theorem setBits_ok_snd (v : BitView) (offset value bits : Int)
    (h : offset + bits ≤ v.bitLength) :
    (v.setBits offset value bits).2 = none := by
  unfold BitView.setBits
  rw [checkBounds_ok v offset bits h]

theorem setBits_snd_none_bound (v : BitView) (offset value bits : Int)
    (h : (v.setBits offset value bits).2 = none) :
    offset + bits ≤ v.bitLength := by
  by_contra hc
  rw [setBits_overrun v offset value bits (by omega)] at h
  simp at h

theorem BitView.setBits_buffer_length (v : BitView) (offset value bits : Int) :
    ((v.setBits offset value bits).1).buffer.length = v.buffer.length := by
  unfold BitView.setBits
  split
  case h_1 => rfl
  case h_2 => simp [foldl_setBitsStep_length]

/-! ## Claim theorems -/

/-- C1: the claimed unsigned round-trip fails on the code.  On a zeroed
1-byte view, `setBits(0, 31, 5)` stores byte `0b00111000` — line 147 masks
the chunk with `0b11111111 >> read` (= `0b111` for `read = 5`), keeping only
`8 − read` low bits instead of `read` — so the unsigned read returns `7`,
not `31`, contradicting the claim and the repository's own exhaustive
'unsigned write' test (`__tests__/index.ts` lines 416–432). -/
theorem c1_unsigned_roundtrip_fails_on_code :
    (BitView.mk [0]).setBits 0 31 5 = (BitView.mk [56], none) ∧
    (BitView.mk [56]).getBits 0 5 false = Except.ok 7 ∧ (7 : Int) ≠ 31 :=
  ⟨rfl, rfl, by decide⟩

/-- C2: the claimed signed round-trip fails on the code.  On a zeroed 1-byte
view, `setBits(0, -16, 5)` should store the two's-complement pattern
`0b10000` of `−16`, but line 147's mask `0b11111111 >> 5 = 0b111` throws the
chunk's high bits away and the stored byte is `0`; the signed read then
returns `0`, not `−16` — contradicting the claim and the repository's own
'signed write' test (`__tests__/index.ts` lines 434–451).  A second,
independent slip sits on the read side: line 89 tests
`value > 2 ** (bits - 1)` instead of `>=`, so the 33-bit two's-complement
pattern of `−2^32` (bit 1 followed by 32 zero bits, here at bit offset 7,
where the accumulator never crosses 32 bits exactly and stays exact)
decodes as `+2^32` instead of `−2^32`. -/
theorem c2_signed_roundtrip_fails_on_code :
    (BitView.mk [0]).setBits 0 (-16) 5 = (BitView.mk [0], none) ∧
    (BitView.mk [0]).getBits 0 5 true = Except.ok 0 ∧ (0 : Int) ≠ -16 ∧
    (BitView.mk [1, 0, 0, 0, 0]).getBits 7 33 true = Except.ok 4294967296 ∧
    (4294967296 : Int) ≠ -4294967296 :=
  ⟨rfl, rfl, by decide, rfl, by decide⟩

/-- C8: the claimed frame property fails on the code.  Writing the 1-bit
span `[7, 8)` with value `−1` on a zeroed 1-byte view must leave bit offsets
0–6 untouched, but line 147 extracts `-1 & (0b11111111 >> 1) = 0b1111111`
and ORs all seven bits into the byte: the buffer becomes `[127]` and e.g.
the bit at offset 3 — outside the span — flips from 0 to 1. -/
theorem c8_partial_byte_write_destroys_neighbors :
    (BitView.mk [0]).setBits 7 (-1) 1 = (BitView.mk [127], none) ∧
    (BitView.mk [0]).getBit 3 = 0 ∧ (BitView.mk [127]).getBit 3 = 1 := by
  decide

/-- C6: a `getBits`/`setBits` call whose span overruns the view
(`offset + bits > bitLength`) fails with the bounds error, and `setBits`
returns the buffer exactly as it was — `checkBounds` runs before the write
loop, so no partial write precedes the error. -/
theorem c6_bounds_enforced_no_partial_write (v : BitView) (offset bits value : Int)
    (signed : Bool) (h : v.bitLength < offset + bits) :
    v.setBits offset value bits =
      (v, some (JsError.boundsError bits offset (v.bitLength - offset))) ∧
    v.getBits offset bits signed =
      Except.error (JsError.boundsError bits offset (v.bitLength - offset)) :=
  ⟨setBits_overrun v offset value bits h, getBits_overrun v offset bits signed h⟩

theorem c6_witness :
    (BitView.mk [0]).bitLength < 4 + 8 ∧
    (BitView.mk [0]).setBits 4 255 8 =
      (BitView.mk [0], some (JsError.boundsError 8 4 4)) ∧
    (BitView.mk [0]).getBits 4 8 false =
      Except.error (JsError.boundsError 8 4 4) :=
  ⟨by decide,
   (c6_bounds_enforced_no_partial_write (BitView.mk [0]) 4 8 255 false (by decide)).1,
   (c6_bounds_enforced_no_partial_write (BitView.mk [0]) 4 8 255 false (by decide)).2⟩

/-- C7: the claim is false — `checkBounds` never rejects a negative offset.
At offset `−8` with 8 bits on a 1-byte view the span-end condition
`bits ≤ bitLength − offset` holds, so both the read and the write proceed
without failing: the read returns 0 (out-of-range byte reads behave as 0)
and the write completes with no error (out-of-range byte writes are
discarded), instead of failing as the claim requires. -/
theorem c7_negative_offset_accepted_cex :
    (BitView.mk [0]).getBits (-8) 8 false = Except.ok 0 ∧
    (BitView.mk [0]).setBits (-8) 255 8 = (BitView.mk [0], none) :=
  ⟨rfl, rfl⟩

/-- C7 (amended): the only precondition `checkBounds` enforces is
`offset + bits ≤ bitLength`; `0 ≤ offset` is never checked, so a
negative-offset call whose span end stays within the view succeeds — the
read returns a value and the write reports no error. -/
theorem c7_only_overrun_is_rejected (v : BitView) (offset bits value : Int)
    (signed : Bool) (_hneg : offset < 0) (h : offset + bits ≤ v.bitLength) :
    (∃ r, v.getBits offset bits signed = Except.ok r) ∧
    (v.setBits offset value bits).2 = none :=
  ⟨getBits_ok_exists v offset bits signed h, setBits_ok_snd v offset value bits h⟩

theorem c7_witness :
    ((-8 : Int) < 0) ∧ ((-8 : Int) + 8 ≤ (BitView.mk [5]).bitLength) ∧
    ((∃ r, (BitView.mk [5]).getBits (-8) 8 true = Except.ok r) ∧
     ((BitView.mk [5]).setBits (-8) 9 8).2 = none) :=
  ⟨by decide, by decide,
   c7_only_overrun_is_rejected (BitView.mk [5]) (-8) 8 9 true (by decide) (by decide)⟩

theorem toInt32_eq_self (x : Int) (h1 : 0 ≤ x) (h2 : x < 2147483648) :
    toInt32 x = x := by
  unfold toInt32 toUint32 asInt32
  have hm : x % 4294967296 = x := by omega
  rw [hm, if_pos (by omega)]
  omega

theorem jsShr_three (x : Int) (h1 : 0 ≤ x) (h2 : x < 2147483648) :
    jsShr x 3 = x / 8 := by
  unfold jsShr
  rw [toInt32_eq_self x h1 h2, (by decide : toUint32 3 % 32 = 3)]
  norm_num

/-- C3: the claim is false — `getBit` (source lines 33–35) never calls
`checkBounds` and cannot fail.  At offset 8 on a 1-byte view of `[0xFF]` it
returns the value `0` (the out-of-range byte read behaves as 0), while the
spec-modelled `getBitSpec` fails with the bounds error the claim demands;
and at offset `2^32` the `ToInt32` coercion of `offset >> 3` wraps the byte
index back to 0 and the call returns `1` — again a value, not a failure. -/
theorem c3_getBit_returns_instead_of_failing :
    (BitView.mk [255]).getBit 8 = 0 ∧
    BitView.getBitSpec (BitView.mk [255]) 8 =
      Except.error (JsError.boundsError 1 8 0) ∧
    (BitView.mk [255]).getBit 4294967296 = 1 :=
  ⟨rfl, rfl, rfl⟩

/-- C3 (amended): `getBit` performs no bounds check and never fails: for
every offset with `bitLength ≤ offset < 2^31` — the range where the
`ToInt32`-coerced index `offset >> 3` still points past the buffer — it
returns the value `0` (the out-of-range byte read behaves as `0` under the
bitwise operators); for offsets at or beyond `2^31` the coerced index wraps
and the call can return an in-range byte's bit instead (see the
counterexample at `2^32`), still a value rather than a BoundsError. -/
theorem c3_getBit_out_of_range_returns_zero (v : BitView) (offset : Int)
    (h : v.bitLength ≤ offset) (h32 : offset < 2147483648) :
    v.getBit offset = 0 := by
  simp only [BitView.bitLength] at h
  have h0 : (0 : Int) ≤ offset := by omega
  have hge : v.buffer.length ≤ (offset / 8).toNat := by omega
  have hrb : readByte v.buffer (offset / 8) = 0 := by
    unfold readByte
    rw [if_pos (by omega : (0 : Int) ≤ offset / 8)]
    rw [List.getD_eq_getElem?_getD, List.getElem?_eq_none hge]
    rfl
  unfold BitView.getBit
  rw [jsShr_three offset h0 h32, hrb, jsShr_zero_left]
  decide

theorem c3_witness :
    ((BitView.mk [7]).bitLength ≤ 9) ∧ ((9 : Int) < 2147483648) ∧
    (BitView.mk [7]).getBit 9 = 0 :=
  ⟨by decide, by decide,
   c3_getBit_out_of_range_returns_zero (BitView.mk [7]) 9 (by decide) (by decide)⟩

/-- C5: the claim is false — `writeBuffer` checks bounds per byte inside each
`setUint8`, not before the first byte.  Writing 3 bytes at offset 0 into a
2-byte view raises the bounds error only at the third byte, after the first
two bytes of the region have already been overwritten: the buffer `[255,255]`
is `[0,0]` when the error propagates (the stored values are `0` because of
the line-147 extraction slip, but the mutation itself is what refutes the
claim).  `writeString` delegates to `writeBuffer` (line 232) and fails the
same way. -/
theorem c5_writeBuffer_not_atomic_cex :
    (BitView.mk [255, 255]).writeBuffer 0 [170, 187, 204] =
      (BitView.mk [0, 0], some (JsError.boundsError 8 16 0)) ∧
    BitView.mk [0, 0] ≠ BitView.mk [255, 255] :=
  ⟨rfl, by decide⟩

/-- C5 (amended): bounds are checked per byte: a `writeBuffer` whose span
spills past the end of the region always raises the bounds error when the
loop reaches the first out-of-range byte — but the bytes written by the
earlier iterations have already mutated the region by then. -/
theorem c5_spilling_write_raises (src : List Nat) (v : BitView) (offset : Int)
    (hne : src ≠ []) (hoff : 0 ≤ offset)
    (hspill : v.bitLength < offset + 8 * src.length) :
    (v.writeBuffer offset src).2.isSome = true := by
  induction src generalizing v offset with
  | nil => exact absurd rfl hne
  | cons b rest ih =>
    unfold BitView.writeBuffer
    rcases hw : v.setUint8 offset (b : Int) with ⟨v2, oe⟩
    cases oe with
    | some e => simp [hw]
    | none =>
      simp only [hw]
      unfold BitView.setUint8 at hw
      have hok : offset + 8 ≤ v.bitLength :=
        setBits_snd_none_bound v offset (b : Int) 8 (by rw [hw])
      have hlen : v2.buffer.length = v.buffer.length := by
        have hl := BitView.setBits_buffer_length v offset (b : Int) 8
        rw [hw] at hl
        exact hl
      have hbl : v2.bitLength = v.bitLength := by
        simp only [BitView.bitLength, hlen]
      cases rest with
      | nil =>
        exfalso
        simp only [List.length_cons, List.length_nil] at hspill
        omega
      | cons c t =>
        apply ih v2 (offset + 8) (by simp) (by omega)
        simp only [List.length_cons] at hspill ⊢
        push_cast at hspill ⊢
        omega

theorem c5_witness :
    (([9, 9, 9] : List Nat) ≠ []) ∧ ((0 : Int) ≤ 0) ∧
    ((BitView.mk [1, 2]).bitLength < 0 + 8 * (([9, 9, 9] : List Nat).length : Int)) ∧
    ((BitView.mk [1, 2]).writeBuffer 0 [9, 9, 9]).2.isSome = true :=
  ⟨by decide, by decide, by decide,
   c5_spilling_write_raises [9, 9, 9] (BitView.mk [1, 2]) 0 (by decide) (by decide)
     (by decide)⟩

/-- C10: a `readBits`/`writeBits` call that fails the view's bounds check
leaves the stream exactly as it was: the cursor advance (`bitIndex += bits`,
source lines 283/294) runs only after the delegated view call returns, so
the propagating exception leaves `bitIndex` (and the buffer) unchanged. -/
theorem c10_cursor_unchanged_on_error (s : BitStream) (bits value : Int)
    (signed : Bool) (h : s.bitLength < s.bitIndex + bits) :
    (s.writeBits value bits).1 = s ∧ (s.writeBits value bits).2.isSome = true ∧
    s.readBits bits signed =
      Except.error (JsError.boundsError bits s.bitIndex (s.bitLength - s.bitIndex)) := by
  simp only [BitStream.bitLength] at h
  have hset := setBits_overrun s.view s.bitIndex value bits h
  have hget := getBits_overrun s.view s.bitIndex bits signed h
  refine ⟨?_, ?_, ?_⟩
  · unfold BitStream.writeBits
    rw [hset]
  · unfold BitStream.writeBits
    rw [hset]
    rfl
  · unfold BitStream.readBits
    rw [hget]
    rfl

theorem c10_witness :
    ((BitStream.mk (BitView.mk [0]) 4).bitLength < 4 + 8) ∧
    ((BitStream.mk (BitView.mk [0]) 4).writeBits 1 8).1 =
      BitStream.mk (BitView.mk [0]) 4 ∧
    ((BitStream.mk (BitView.mk [0]) 4).writeBits 1 8).2.isSome = true ∧
    (BitStream.mk (BitView.mk [0]) 4).readBits 8 false =
      Except.error (JsError.boundsError 8 4 4) :=
  ⟨by decide,
   (c10_cursor_unchanged_on_error (BitStream.mk (BitView.mk [0]) 4) 8 1 false
     (by decide)).1,
   (c10_cursor_unchanged_on_error (BitStream.mk (BitView.mk [0]) 4) 8 1 false
     (by decide)).2.1,
   (c10_cursor_unchanged_on_error (BitStream.mk (BitView.mk [0]) 4) 8 1 false
     (by decide)).2.2⟩

theorem readBits_ok_stream (s : BitStream) (bits : Int) (signed : Bool)
    (val : Int) (s2 : BitStream)
    (h : s.readBits bits signed = Except.ok (val, s2)) :
    s2.bitIndex = s.bitIndex + bits := by
  unfold BitStream.readBits at h
  split at h
  · exact absurd h (by simp)
  · simp only [Except.ok.injEq, Prod.mk.injEq] at h
    rw [← h.2]

theorem writeBits_ok_stream (s : BitStream) (value bits : Int) (s2 : BitStream)
    (h : s.writeBits value bits = (s2, none)) :
    s2.bitIndex = s.bitIndex + bits := by
  unfold BitStream.writeBits at h
  split at h
  · simp at h
  · simp only [Prod.mk.injEq] at h
    rw [← h.1]

theorem runOp_bitIndex (s : BitStream) (op : StreamOp) (s2 : BitStream)
    (h : runOp s op = Except.ok s2) : s2.bitIndex = s.bitIndex + op.width := by
  cases op with
  | opReadBit =>
    simp only [runOp, BitStream.readBit, Except.ok.injEq] at h
    rw [← h]
    rfl
  | opReadBits bits signed =>
    simp only [runOp] at h
    split at h
    · exact absurd h (by simp)
    · rename_i r heq
      simp only [Except.ok.injEq] at h
      rw [← h]
      exact readBits_ok_stream s bits signed r.1 r.2 heq
  | opWriteBit value =>
    simp only [runOp, BitStream.writeBit, Except.ok.injEq] at h
    rw [← h]
    rfl
  | opWriteBits value bits =>
    simp only [runOp] at h
    split at h
    · exact absurd h (by simp)
    · rename_i s3 heq
      simp only [Except.ok.injEq] at h
      rw [← h]
      exact writeBits_ok_stream s value bits s3 heq
  | opReadBoolean =>
    simp only [runOp, BitStream.readBoolean, BitStream.readBit, Except.ok.injEq] at h
    rw [← h]
    rfl
  | opWriteBoolean value =>
    simp only [runOp, BitStream.writeBoolean, BitStream.writeBit, Except.ok.injEq] at h
    rw [← h]
    rfl
  | opReadInt8 =>
    simp only [runOp, BitStream.readInt8] at h
    split at h
    · exact absurd h (by simp)
    · rename_i r heq
      simp only [Except.ok.injEq] at h
      rw [← h]
      exact readBits_ok_stream s 8 true r.1 r.2 heq
  | opReadUint8 =>
    simp only [runOp, BitStream.readUint8] at h
    split at h
    · exact absurd h (by simp)
    · rename_i r heq
      simp only [Except.ok.injEq] at h
      rw [← h]
      exact readBits_ok_stream s 8 false r.1 r.2 heq
  | opReadInt16 =>
    simp only [runOp, BitStream.readInt16] at h
    split at h
    · exact absurd h (by simp)
    · rename_i r heq
      simp only [Except.ok.injEq] at h
      rw [← h]
      exact readBits_ok_stream s 16 true r.1 r.2 heq
  | opReadUint16 =>
    simp only [runOp, BitStream.readUint16] at h
    split at h
    · exact absurd h (by simp)
    · rename_i r heq
      simp only [Except.ok.injEq] at h
      rw [← h]
      exact readBits_ok_stream s 16 false r.1 r.2 heq
  | opReadInt32 =>
    simp only [runOp, BitStream.readInt32] at h
    split at h
    · exact absurd h (by simp)
    · rename_i r heq
      simp only [Except.ok.injEq] at h
      rw [← h]
      exact readBits_ok_stream s 32 true r.1 r.2 heq
  | opReadUint32 =>
    simp only [runOp, BitStream.readUint32] at h
    split at h
    · exact absurd h (by simp)
    · rename_i r heq
      simp only [Except.ok.injEq] at h
      rw [← h]
      exact readBits_ok_stream s 32 false r.1 r.2 heq
  | opWriteInt8 value =>
    simp only [runOp, BitStream.writeInt8] at h
    split at h
    · exact absurd h (by simp)
    · rename_i s3 heq
      simp only [Except.ok.injEq] at h
      rw [← h]
      exact writeBits_ok_stream s value 8 s3 heq
  | opWriteUint8 value =>
    simp only [runOp, BitStream.writeUint8] at h
    split at h
    · exact absurd h (by simp)
    · rename_i s3 heq
      simp only [Except.ok.injEq] at h
      rw [← h]
      exact writeBits_ok_stream s value 8 s3 heq
  | opWriteInt16 value =>
    simp only [runOp, BitStream.writeInt16] at h
    split at h
    · exact absurd h (by simp)
    · rename_i s3 heq
      simp only [Except.ok.injEq] at h
      rw [← h]
      exact writeBits_ok_stream s value 16 s3 heq
  | opWriteUint16 value =>
    simp only [runOp, BitStream.writeUint16] at h
    split at h
    · exact absurd h (by simp)
    · rename_i s3 heq
      simp only [Except.ok.injEq] at h
      rw [← h]
      exact writeBits_ok_stream s value 16 s3 heq
  | opWriteInt32 value =>
    simp only [runOp, BitStream.writeInt32] at h
    split at h
    · exact absurd h (by simp)
    · rename_i s3 heq
      simp only [Except.ok.injEq] at h
      rw [← h]
      exact writeBits_ok_stream s value 32 s3 heq
  | opWriteUint32 value =>
    simp only [runOp, BitStream.writeUint32] at h
    split at h
    · exact absurd h (by simp)
    · rename_i s3 heq
      simp only [Except.ok.injEq] at h
      rw [← h]
      exact writeBits_ok_stream s value 32 s3 heq

theorem runOps_bitIndex (ops : List StreamOp) (s s' : BitStream)
    (h : runOps s ops = Except.ok s') :
    s'.bitIndex = s.bitIndex + opWidthSum ops := by
  induction ops generalizing s with
  | nil =>
    simp only [runOps, Except.ok.injEq] at h
    rw [← h]
    simp [opWidthSum]
  | cons op rest ih =>
    simp only [runOps] at h
    split at h
    · exact absurd h (by simp)
    · rename_i s2 heq
      have h1 := runOp_bitIndex s op s2 heq
      have h2 := ih s2 h
      simp only [opWidthSum, List.map_cons, List.sum_cons] at h2 ⊢
      omega

/-- C9: after any successful sequence of fixed-width stream operations
starting from `bitIndex = 0`, `bitIndex` equals the sum of the widths
consumed — every operation advances the cursor by exactly its width — and
the `byteIndex` getter returns `⌈bitIndex / 8⌉`. -/
theorem c9_cursor_advance (ops : List StreamOp) (v : BitView) (s' : BitStream)
    (h : runOps (BitStream.ofView v) ops = Except.ok s') :
    s'.bitIndex = opWidthSum ops ∧ s'.byteIndex = (s'.bitIndex + 7) / 8 := by
  constructor
  · have h1 := runOps_bitIndex ops (BitStream.ofView v) s' h
    simpa [BitStream.ofView] using h1
  · simp only [BitStream.byteIndex]
    omega

theorem c9_witness :
    runOps (BitStream.ofView (BitView.mk [0, 0, 0]))
        [StreamOp.opWriteBit 1, StreamOp.opReadBits 7 false, StreamOp.opWriteInt8 5] =
      Except.ok (BitStream.mk (BitView.mk [128, 0, 0]) 16) ∧
    (BitStream.mk (BitView.mk [128, 0, 0]) 16).bitIndex =
      opWidthSum [StreamOp.opWriteBit 1, StreamOp.opReadBits 7 false,
        StreamOp.opWriteInt8 5] ∧
    (BitStream.mk (BitView.mk [128, 0, 0]) 16).byteIndex =
      ((BitStream.mk (BitView.mk [128, 0, 0]) 16).bitIndex + 7) / 8 :=
  ⟨rfl,
   (c9_cursor_advance [StreamOp.opWriteBit 1, StreamOp.opReadBits 7 false,
      StreamOp.opWriteInt8 5] (BitView.mk [0, 0, 0])
      (BitStream.mk (BitView.mk [128, 0, 0]) 16) rfl).1,
   (c9_cursor_advance [StreamOp.opWriteBit 1, StreamOp.opReadBits 7 false,
      StreamOp.opWriteInt8 5] (BitView.mk [0, 0, 0])
      (BitStream.mk (BitView.mk [128, 0, 0]) 16) rfl).2⟩
